import Mathlib

/-!
Verification of the Data-Matching payment reconciliation pipeline.

Shallow embedding of the core pipeline (src/core/matcher.py, src/core/fetcher.py,
src/main.py): records are string-keyed field maps, the matcher is a fold over the
checkout list carrying the working reference set, the paginated fetcher is a
recursion over the stream of page responses, and the pipeline orchestrator is a
transition function on the process-wide run state.
-/

namespace DataMatching

/-- A loosely-typed record: an ordered field map from field name to string value,
as retrieved verbatim from a client API (a Python dict seen through lookups). -/
abbrev Record := List (String × String)

/-- Dictionary lookup `d.get(k)`: the value bound to `k`, if present. -/
def Record.get (r : Record) (k : String) : Option String :=
  (r.find? (fun p => p.1 == k)).map Prod.snd

/-- Dictionary lookup with default `d.get(k, dflt)`. -/
def Record.getD (r : Record) (k : String) (dflt : String) : String :=
  (Record.get r k).getD dflt

/-- The checkout join-key field name (`stripe_payment_intent_id`). -/
def piKey : String := "stripe_payment_intent_id"

/-- The transaction join-key field name (`paya_reference`). -/
def payaKey : String := "paya_reference"

/-- `ClientData` from src/core/fetcher.py: one client's fetched raw data. -/
structure ClientData where
  client_name : String
  checkouts : List Record := []
  transactions : List Record := []
  checkout_count : Nat := 0
  transaction_count : Nat := 0
  error : Option String := none
deriving Repr, DecidableEq

/-- A matched record as built in `match_client`: the checkout, the transaction
attached from the reference map, and the shared payment intent value. -/
structure MatchedRecord where
  checkout : Record
  transaction : Record
  payment_intent : String
deriving Repr, DecidableEq

/-- `MatchResult` from src/core/matcher.py.  `match_rate` is modelled over ℚ:
the code computes `matched / total * 100` with a zero guard. -/
structure MatchResult where
  client_name : String
  matched : List MatchedRecord := []
  unmatched : List Record := []
  matched_count : Nat := 0
  unmatched_count : Nat := 0
  total_checkouts : Nat := 0
  total_transactions : Nat := 0
  match_rate : ℚ := 0
  error : Option String := none
deriving Repr, DecidableEq

/-- One step of the reference-set comprehension: add the transaction's
`paya_reference` when it is present and non-empty. -/
def refStep (s : Finset String) (txn : Record) : Finset String :=
  match Record.get txn payaKey with
  | some v => if v = "" then s else insert v s
  | none => s

/-- The set comprehension in `match_client`:
`{txn["paya_reference"] for txn in transactions if txn.get("paya_reference")}`.
The guard is Python truthiness: the key is present and its value non-empty. -/
def payaRefSet (txns : List Record) : Finset String :=
  txns.foldl refStep ∅

/-- One step of the `txn_by_ref` dict build, seen through lookup of `ref`:
the assignment `txn_by_ref[ref] = txn` under the `if ref:` guard overwrites
any earlier binding. -/
def tbrStep (ref : String) (acc : Option Record) (txn : Record) : Option Record :=
  match Record.get txn payaKey with
  | some v => if v = "" then acc else if v = ref then some txn else acc
  | none => acc

/-- The `txn_by_ref` dict of `match_client`, viewed through lookup: built by a
forward loop `txn_by_ref[ref] = txn` guarded by `if ref:`, so a later
transaction with the same reference overwrites an earlier one. -/
def txnByRef (txns : List Record) (ref : String) : Option Record :=
  txns.foldl (tbrStep ref) none

/-- The mutable state of the checkout loop in `match_client`: the working
reference set plus the matched and unmatched accumulators. -/
structure LoopState where
  refSet : Finset String
  matched : List MatchedRecord
  unmatched : List Record

/-- The payment-intent identifier a checkout presents:
`checkout.get("stripe_payment_intent_id", "")`. -/
def pid (c : Record) : String := Record.getD c piKey ""

/-- One iteration of the checkout loop in `match_client`: skip on empty
identifier; on a hit, append a matched record (transaction looked up with
default `{}`) and discard the identifier from the working set; on a miss,
append the checkout to the unmatched list. -/
def matchStep (tbr : String → Option Record) (st : LoopState) (c : Record) : LoopState :=
  if pid c = "" then st
  else if pid c ∈ st.refSet then
    { st with
      matched := st.matched ++ [{ checkout := c, transaction := (tbr (pid c)).getD [], payment_intent := pid c }]
      refSet := st.refSet.erase (pid c) }
  else
    { st with unmatched := st.unmatched ++ [c] }

/-- The matching body of `match_client` once the error guard has passed,
parameterised by the already-built reference set (so that the raw-lookup
variant below can share it). -/
def matchBody (cd : ClientData) (refs : Finset String) : MatchResult :=
  let final := cd.checkouts.foldl (matchStep (txnByRef cd.transactions)) ⟨refs, [], []⟩
  let mc := final.matched.length
  let uc := final.unmatched.length
  let total := mc + uc
  { client_name := cd.client_name
    matched := final.matched
    unmatched := final.unmatched
    matched_count := mc
    unmatched_count := uc
    total_checkouts := cd.checkout_count
    total_transactions := cd.transaction_count
    match_rate := if 0 < total then (mc : ℚ) / (total : ℚ) * 100 else 0
    error := none }

/-- `match_client` from src/core/matcher.py.  The error guard is Python
truthiness (`if client_data.error:`): an error that is `None` or the empty
string does not trigger early return. -/
def match_client (cd : ClientData) : MatchResult :=
  if Option.getD cd.error "" ≠ "" then
    { client_name := cd.client_name, error := cd.error }
  else
    matchBody cd (payaRefSet cd.transactions)

/-- Checkouts that carry a non-empty payment-intent identifier (the ones the
matcher does not silently exclude). -/
def eligible (checkouts : List Record) : List Record :=
  checkouts.filter (fun c => pid c ≠ "")

/-- The set comprehension of `match_client` with the raw subscript
`txn["paya_reference"]` modelled as a fallible lookup (`none` would be a
Python `KeyError`); the comprehension's `if txn.get("paya_reference")` guard
is evaluated before the element expression.  This is one step of that
comprehension over a possibly already-failed accumulator. -/
def chkStep (acc : Option (Finset String)) (txn : Record) : Option (Finset String) :=
  match acc with
  | none => none
  | some s =>
    if Record.getD txn payaKey "" ≠ "" then
      match Record.get txn payaKey with
      | some v => some (insert v s)
      | none => none
    else some s

/-- The reference-set comprehension with the raw subscript made fallible,
folding `chkStep` over the transactions. -/
def payaRefSetChecked (txns : List Record) : Option (Finset String) :=
  txns.foldl chkStep (some ∅)

/-- `match_client` with every fallible dictionary subscript made explicit:
the result is `none` exactly when the Python code would raise a `KeyError`.
All other lookups in the function use `.get` with a default. -/
def match_client_checked (cd : ClientData) : Option MatchResult :=
  if Option.getD cd.error "" ≠ "" then
    some { client_name := cd.client_name, error := cd.error }
  else
    (payaRefSetChecked cd.transactions).map (matchBody cd)

/-- The transaction the spec's words designate for a reference: the last
transaction record observed in the input list whose `paya_reference` equals
the given value. -/
def lastTxnWithRef (txns : List Record) (ref : String) : Option Record :=
  txns.reverse.find? (fun t => Record.get t payaKey == some ref)

/-- One page response of the paginated source API, as read by
`_fetch_paginated`: transport status, then the JSON envelope fields with the
defaults the code applies (`success` falsy, `data` `[]`, `has_more` `False`,
`error` absent). -/
structure PageResponse where
  status : Nat
  success : Bool := false
  data : List Record := []
  has_more : Bool := false
  error : Option String := none
deriving Repr, DecidableEq

/-- The `while True` loop of `_fetch_paginated`, recursing over the stream of
responses the endpoint returns for pages 1, 2, …, carrying the `all_data`
accumulator.  `none` means the loop would request a page beyond the supplied
stream; `some (Except.error e)` models the raised exception. -/
def fetchPaginatedGo (url : String) (pages : List PageResponse) (acc : List Record) :
    Option (Except String (List Record)) :=
  match pages with
  | [] => none
  | p :: rest =>
    if p.status ≠ 200 then
      some (Except.error ("HTTP " ++ Nat.repr p.status ++ " from " ++ url))
    else if p.success = false then
      some (Except.error ("API error: " ++ Option.getD p.error "Unknown"))
    else if p.has_more = false then
      some (Except.ok (acc ++ p.data))
    else
      fetchPaginatedGo url rest (acc ++ p.data)

/-- `_fetch_paginated` from src/core/fetcher.py, as a function of the stream
of page responses the endpoint produces. -/
def fetchPaginated (url : String) (pages : List PageResponse) :
    Option (Except String (List Record)) :=
  fetchPaginatedGo url pages []

/-- `asyncio.gather` over the two sub-fetches of `fetch_client_data`: if
either raises, the exception propagates (the checkout fetch's error is taken
first when both fail); otherwise both results are returned. -/
def gather2 (c t : Except String (List Record)) :
    Except String (List Record × List Record) :=
  match c, t with
  | Except.error e, _ => Except.error e
  | _, Except.error e => Except.error e
  | Except.ok cs, Except.ok ts => Except.ok (cs, ts)

/-- `fetch_client_data` from src/core/fetcher.py, as a function of the two
sub-fetch outcomes: on success it fills the lists and counts; on any raised
exception the `except` clause records `str(e)` and the result keeps its
empty defaults. -/
def fetch_client_data (name : String) (cres tres : Except String (List Record)) :
    ClientData :=
  match gather2 cres tres with
  | Except.error e =>
      { client_name := name, error := some e }
  | Except.ok (cs, ts) =>
      { client_name := name
        checkouts := cs
        transactions := ts
        checkout_count := cs.length
        transaction_count := ts.length
        error := none }

/-- `ClientConfig` from src/config/settings.py. -/
structure ClientConfig where
  name : String
  base_url : String
  api_key : String
  table_prefix : String := "pw_"
  enabled : Bool := true
deriving Repr, DecidableEq

/-- `AppSettings` from src/config/settings.py (email settings omitted: the
notifier is outside the claims). -/
structure AppSettings where
  days : Nat := 2
  max_workers : Nat := 4
  fetch_page_size : Nat := 5000
  request_timeout : Nat := 30
  clients : List ClientConfig := []

/-- The network environment seen by one run: for each client, the outcomes of
its checkout-journey and transaction sub-fetches. -/
structure FetchEnv where
  checkoutRes : ClientConfig → Except String (List Record)
  txnRes : ClientConfig → Except String (List Record)

/-- `fetch_all_clients` from src/core/fetcher.py: one task per configured
client, gathered with `asyncio.gather`, which returns results in task order
regardless of completion order. -/
def fetch_all_clients (settings : AppSettings) (env : FetchEnv) : List ClientData :=
  settings.clients.map (fun c => fetch_client_data c.name (env.checkoutRes c) (env.txnRes c))

/-- `match_all_clients` from src/core/matcher.py: `ThreadPoolExecutor.map`
applies `match_client` to each `ClientData` and yields results in input
order regardless of completion order. -/
def match_all_clients (clients_data : List ClientData) : List MatchResult :=
  clients_data.map match_client

/-- The process-wide mutable run state of src/main.py: the `is_running` guard
flag and the `last_run` summary, with the summary payload abstract. -/
structure PipelineState (σ : Type) where
  is_running : Bool
  last_run : Option σ
deriving Repr, DecidableEq

/-- What one execution of the pipeline body does once it has been entered:
either it completes and builds a run summary, or some stage raises. -/
inductive PipelineOutcome (σ : Type) where
  | success (summary : σ)
  | failure (e : String)
deriving Repr, DecidableEq

/-- The value `run_matching_pipeline` returns to its caller: the run summary
dict, or an `{"error": ...}` dict. -/
inductive RunResponse (σ : Type) where
  | summary (s : σ)
  | error (e : String)
deriving Repr, DecidableEq

/-- The `try` block of `run_matching_pipeline`: on success record the summary
in `last_run` and return it; on an exception leave `last_run` unchanged and
return the error response. -/
def pipeline_body {σ : Type} (outcome : PipelineOutcome σ) (st : PipelineState σ) :
    PipelineState σ × RunResponse σ :=
  match outcome with
  | PipelineOutcome.success s => ({ st with last_run := some s }, RunResponse.summary s)
  | PipelineOutcome.failure e => (st, RunResponse.error e)

/-- `run_matching_pipeline` from src/main.py as a transition on the run
state: reject when already running (no state change), otherwise set the
guard, run the body, and clear the guard in the `finally` clause. -/
def run_matching_pipeline {σ : Type} (st : PipelineState σ) (outcome : PipelineOutcome σ) :
    PipelineState σ × RunResponse σ :=
  if st.is_running then
    (st, RunResponse.error "A matching job is already running")
  else
    let entered : PipelineState σ := { st with is_running := true }
    let buildResult := pipeline_body outcome entered
    ({ buildResult.1 with is_running := false }, buildResult.2)

/-! ### Concrete instances used in witnesses and counterexamples -/

/-- The concrete client of spec §8.6: intents `pi_1`, `pi_2`, references
`pi_1`. -/
def cdAcme : ClientData :=
  { client_name := "Acme"
    checkouts := [[(piKey, "pi_1")], [(piKey, "pi_2")]]
    transactions := [[(payaKey, "pi_1")]]
    checkout_count := 2
    transaction_count := 1
    error := none }

/-- A transaction with reference `a` and payload marker `1`. -/
def txnFst : Record := [(payaKey, "a"), ("x", "1")]

/-- A transaction with the same reference `a` and payload marker `2`. -/
def txnSnd : Record := [(payaKey, "a"), ("x", "2")]

/-- A client whose two transactions share the reference `a`, in order
`txnFst, txnSnd`, with one checkout presenting `a`. -/
def cdDupTxn : ClientData :=
  { client_name := "dup"
    checkouts := [[(piKey, "a")]]
    transactions := [txnFst, txnSnd]
    checkout_count := 1
    transaction_count := 2
    error := none }

/-- The same client with its transaction list reversed. -/
def cdDupTxnRev : ClientData :=
  { client_name := "dup"
    checkouts := [[(piKey, "a")]]
    transactions := [txnSnd, txnFst]
    checkout_count := 1
    transaction_count := 2
    error := none }

/-- A client with two checkouts presenting the same intent `a`, and one
transaction carrying that reference. -/
def cdDupChk : ClientData :=
  { client_name := "dupchk"
    checkouts := [[(piKey, "a"), ("n", "1")], [(piKey, "a"), ("n", "2")]]
    transactions := [txnFst]
    checkout_count := 2
    transaction_count := 1
    error := none }

/-- A successfully fetched client with a single checkout that carries no
payment-intent identifier at all. -/
def cdNoPi : ClientData :=
  { client_name := "nopi"
    checkouts := [[]]
    transactions := []
    checkout_count := 1
    transaction_count := 0
    error := none }

/-- A client whose fetch error is set to the empty string, with one checkout
presenting an identifier. -/
def cdEmptyErr : ClientData :=
  { client_name := "emptyerr"
    checkouts := [[(piKey, "x")]]
    transactions := []
    checkout_count := 1
    transaction_count := 0
    error := some "" }

/-- A successful page announcing a continuation. -/
def pageOk1 : PageResponse :=
  { status := 200, success := true, data := [[("a", "1")]], has_more := true }

/-- A successful final page. -/
def pageOk2 : PageResponse :=
  { status := 200, success := true, data := [[("b", "2")]], has_more := false }

/-- A page that fails at the transport level. -/
def pageBad : PageResponse :=
  { status := 500, success := false, data := [], has_more := false }

/-! ### Lemmas about the checkout loop of `match_client` -/

/-- A checkout with an empty (or absent) payment-intent identifier is skipped. -/
theorem matchStep_empty (tbr : String → Option Record) (s : Finset String)
    (m : List MatchedRecord) (u : List Record) (c : Record) (h : pid c = "") :
    matchStep tbr ⟨s, m, u⟩ c = ⟨s, m, u⟩ := by
  simp [matchStep, h]

/-- A checkout whose identifier is in the working set is appended to the
matched list and its identifier discarded from the working set. -/
theorem matchStep_hit (tbr : String → Option Record) (s : Finset String)
    (m : List MatchedRecord) (u : List Record) (c : Record)
    (h1 : pid c ≠ "") (h2 : pid c ∈ s) :
    matchStep tbr ⟨s, m, u⟩ c =
      ⟨s.erase (pid c), m ++ [⟨c, (tbr (pid c)).getD [], pid c⟩], u⟩ := by
  simp [matchStep, h1, h2]

/-- A checkout whose identifier is absent from the working set is appended to
the unmatched list, unmodified. -/
theorem matchStep_miss (tbr : String → Option Record) (s : Finset String)
    (m : List MatchedRecord) (u : List Record) (c : Record)
    (h1 : pid c ≠ "") (h2 : pid c ∉ s) :
    matchStep tbr ⟨s, m, u⟩ c = ⟨s, m, u ++ [c]⟩ := by
  simp [matchStep, h1, h2]

/-- The checkout loop only appends to the matched and unmatched accumulators,
and its reference-set evolution ignores them: running from any accumulators
equals running from empty ones with the results appended. -/
theorem foldl_matchStep_acc (tbr : String → Option Record) (l : List Record) :
    ∀ (s : Finset String) (m : List MatchedRecord) (u : List Record),
    List.foldl (matchStep tbr) ⟨s, m, u⟩ l =
      ⟨(List.foldl (matchStep tbr) ⟨s, [], []⟩ l).refSet,
       m ++ (List.foldl (matchStep tbr) ⟨s, [], []⟩ l).matched,
       u ++ (List.foldl (matchStep tbr) ⟨s, [], []⟩ l).unmatched⟩ := by
  induction l with
  | nil => intro s m u; simp
  | cons c rest ih =>
    intro s m u
    by_cases h1 : pid c = ""
    · rw [List.foldl_cons, List.foldl_cons, matchStep_empty tbr s m u c h1,
        matchStep_empty tbr s [] [] c h1]
      exact ih s m u
    · by_cases h2 : pid c ∈ s
      · have h3 := ih (s.erase (pid c))
          (m ++ [(⟨c, (tbr (pid c)).getD [], pid c⟩ : MatchedRecord)]) u
        have h4 := ih (s.erase (pid c))
          ([] ++ [(⟨c, (tbr (pid c)).getD [], pid c⟩ : MatchedRecord)]) []
        rw [List.foldl_cons, List.foldl_cons, matchStep_hit tbr s m u c h1 h2,
          matchStep_hit tbr s [] [] c h1 h2, h3, h4]
        simp
      · have h3 := ih s m (u ++ [c])
        have h4 := ih s [] ([] ++ [c])
        rw [List.foldl_cons, List.foldl_cons, matchStep_miss tbr s m u c h1 h2,
          matchStep_miss tbr s [] [] c h1 h2, h3, h4]
        simp

/-- Counting invariant of the checkout loop: each checkout with a non-empty
payment-intent identifier lands in exactly one of the two accumulators, and
checkouts with an empty identifier land in neither. -/
theorem foldl_matchStep_count (tbr : String → Option Record) (l : List Record) :
    ∀ (s : Finset String) (m : List MatchedRecord) (u : List Record),
    (List.foldl (matchStep tbr) ⟨s, m, u⟩ l).matched.length
      + (List.foldl (matchStep tbr) ⟨s, m, u⟩ l).unmatched.length
    = m.length + u.length + (eligible l).length := by
  induction l with
  | nil => intro s m u; simp [eligible]
  | cons c rest ih =>
    intro s m u
    by_cases h1 : pid c = ""
    · rw [List.foldl_cons, matchStep_empty tbr s m u c h1, ih s m u]
      simp [eligible, List.filter_cons, h1]
    · by_cases h2 : pid c ∈ s
      · have h3 := ih (s.erase (pid c))
          (m ++ [(⟨c, (tbr (pid c)).getD [], pid c⟩ : MatchedRecord)]) u
        rw [List.foldl_cons, matchStep_hit tbr s m u c h1 h2, h3]
        simp [eligible, List.filter_cons, h1]
        omega
      · rw [List.foldl_cons, matchStep_miss tbr s m u c h1 h2, ih s m (u ++ [c])]
        simp [eligible, List.filter_cons, h1]
        omega

/-- The reference set only shrinks along the checkout loop. -/
theorem foldl_matchStep_refSet_subset (tbr : String → Option Record) (l : List Record) :
    ∀ (s : Finset String) (m : List MatchedRecord) (u : List Record),
    (List.foldl (matchStep tbr) ⟨s, m, u⟩ l).refSet ⊆ s := by
  induction l with
  | nil => intro s m u; simp
  | cons c rest ih =>
    intro s m u
    by_cases h1 : pid c = ""
    · rw [List.foldl_cons, matchStep_empty tbr s m u c h1]
      exact ih s m u
    · by_cases h2 : pid c ∈ s
      · rw [List.foldl_cons, matchStep_hit tbr s m u c h1 h2]
        exact (ih _ _ _).trans (Finset.erase_subset _ _)
      · rw [List.foldl_cons, matchStep_miss tbr s m u c h1 h2]
        exact ih s m _

/-- Every record the checkout loop adds to the matched list pairs some
checkout of the processed list with its identifier, which was then present in
the starting reference set, and attaches the looked-up transaction with the
empty-record default. -/
theorem foldl_matchStep_matched_mem (tbr : String → Option Record) (l : List Record) :
    ∀ (s : Finset String) (m : List MatchedRecord) (u : List Record)
      (r : MatchedRecord), r ∈ (List.foldl (matchStep tbr) ⟨s, m, u⟩ l).matched →
    r ∈ m ∨ (∃ c ∈ l, r.checkout = c ∧ r.payment_intent = pid c ∧ pid c ≠ ""
              ∧ pid c ∈ s ∧ r.transaction = (tbr (pid c)).getD []) := by
  induction l with
  | nil =>
    intro s m u r hr
    simp at hr
    exact Or.inl hr
  | cons c rest ih =>
    intro s m u r hr
    rw [List.foldl_cons] at hr
    by_cases h1 : pid c = ""
    · rw [matchStep_empty tbr s m u c h1] at hr
      rcases ih s m u r hr with h | ⟨c', hc', rest'⟩
      · exact Or.inl h
      · exact Or.inr ⟨c', List.mem_cons_of_mem _ hc', rest'⟩
    · by_cases h2 : pid c ∈ s
      · rw [matchStep_hit tbr s m u c h1 h2] at hr
        rcases ih _ _ _ r hr with h | ⟨c', hc', h3, h4, h5, h6, h7⟩
        · rcases List.mem_append.mp h with h | h
          · exact Or.inl h
          · simp at h
            subst h
            exact Or.inr ⟨c, List.mem_cons_self _ _, rfl, rfl, h1, h2, rfl⟩
        · exact Or.inr ⟨c', List.mem_cons_of_mem _ hc', h3, h4, h5,
            Finset.mem_of_mem_erase h6, h7⟩
      · rw [matchStep_miss tbr s m u c h1 h2] at hr
        rcases ih s m _ r hr with h | ⟨c', hc', rest'⟩
        · exact Or.inl h
        · exact Or.inr ⟨c', List.mem_cons_of_mem _ hc', rest'⟩

/-- An identifier that no processed checkout presents survives in the
working reference set: steps only discard the identifier they match. -/
theorem foldl_matchStep_mem_refSet (tbr : String → Option Record) (pi : String)
    (l : List Record) :
    ∀ (s : Finset String) (m : List MatchedRecord) (u : List Record),
    (∀ c ∈ l, pid c ≠ pi) → pi ∈ s →
    pi ∈ (List.foldl (matchStep tbr) ⟨s, m, u⟩ l).refSet := by
  induction l with
  | nil => intro s m u _ hs; simpa using hs
  | cons c rest ih =>
    intro s m u hl hs
    by_cases h1 : pid c = ""
    · rw [List.foldl_cons, matchStep_empty tbr s m u c h1]
      exact ih s m u (fun c' hc' => hl c' (List.mem_cons_of_mem _ hc')) hs
    · by_cases h2 : pid c ∈ s
      · rw [List.foldl_cons, matchStep_hit tbr s m u c h1 h2]
        refine ih _ _ _ (fun c' hc' => hl c' (List.mem_cons_of_mem _ hc')) ?_
        exact Finset.mem_erase.mpr ⟨Ne.symm (hl c (List.mem_cons_self _ _)), hs⟩
      · rw [List.foldl_cons, matchStep_miss tbr s m u c h1 h2]
        exact ih s m _ (fun c' hc' => hl c' (List.mem_cons_of_mem _ hc')) hs

/-- Once an identifier has left the working set, every later checkout that
presents it is appended to the unmatched list. -/
theorem foldl_matchStep_unmatched_of_not_mem (tbr : String → Option Record)
    (pi : String) (hpi : pi ≠ "") (l : List Record) :
    ∀ (s : Finset String) (m : List MatchedRecord) (u : List Record),
    pi ∉ s → ∀ c ∈ l, pid c = pi →
    c ∈ (List.foldl (matchStep tbr) ⟨s, m, u⟩ l).unmatched := by
  induction l with
  | nil => intro s m u _ c hc; exact absurd hc (List.not_mem_nil c)
  | cons c' rest ih =>
    intro s m u hs c hc hcpi
    by_cases h1 : pid c' = ""
    · rw [List.foldl_cons, matchStep_empty tbr s m u c' h1]
      rcases List.mem_cons.mp hc with h | h
      · subst h; exact absurd (hcpi ▸ h1) hpi
      · exact ih s m u hs c h hcpi
    · by_cases h2 : pid c' ∈ s
      · rw [List.foldl_cons, matchStep_hit tbr s m u c' h1 h2]
        rcases List.mem_cons.mp hc with h | h
        · subst h; exact absurd (hcpi ▸ h2) hs
        · refine ih _ _ _ (fun hmem => hs (Finset.mem_of_mem_erase hmem)) c h hcpi
      · rw [List.foldl_cons, matchStep_miss tbr s m u c' h1 h2]
        rcases List.mem_cons.mp hc with h | h
        · subst h
          rw [foldl_matchStep_acc tbr rest s m (u ++ [c])]
          exact List.mem_append_left _ (List.mem_append_right _ (List.mem_singleton_self c))
        · exact ih s m _ hs c h hcpi

/-- Once an identifier has left the working set, no later matched record can
carry it (this is what the `discard` prevents). -/
theorem foldl_matchStep_no_match_of_not_mem (tbr : String → Option Record)
    (pi : String) (l : List Record) (s : Finset String) (m : List MatchedRecord)
    (u : List Record) (hs : pi ∉ s) :
    ∀ r ∈ (List.foldl (matchStep tbr) ⟨s, m, u⟩ l).matched,
    r ∈ m ∨ r.payment_intent ≠ pi := by
  intro r hr
  rcases foldl_matchStep_matched_mem tbr l s m u r hr with h | ⟨c, _, _, h4, _, h6, _⟩
  · exact Or.inl h
  · exact Or.inr (fun hbad => hs (hbad ▸ h4 ▸ h6))

/-- The matched/unmatched partition of the checkout loop depends only on the
reference set, not on the transaction mapping: running with two different
mappings from the same set yields the same unmatched list, the same matched
checkouts, and the same final set. -/
theorem foldl_matchStep_partition (tbr tbr' : String → Option Record)
    (l : List Record) :
    ∀ (s : Finset String) (m m' : List MatchedRecord) (u : List Record),
    m.map MatchedRecord.checkout = m'.map MatchedRecord.checkout →
    ((List.foldl (matchStep tbr) ⟨s, m, u⟩ l).refSet
       = (List.foldl (matchStep tbr') ⟨s, m', u⟩ l).refSet
     ∧ (List.foldl (matchStep tbr) ⟨s, m, u⟩ l).unmatched
       = (List.foldl (matchStep tbr') ⟨s, m', u⟩ l).unmatched
     ∧ (List.foldl (matchStep tbr) ⟨s, m, u⟩ l).matched.map MatchedRecord.checkout
       = (List.foldl (matchStep tbr') ⟨s, m', u⟩ l).matched.map MatchedRecord.checkout) := by
  induction l with
  | nil => intro s m m' u hm; exact ⟨rfl, rfl, hm⟩
  | cons c rest ih =>
    intro s m m' u hm
    by_cases h1 : pid c = ""
    · rw [List.foldl_cons, List.foldl_cons, matchStep_empty tbr s m u c h1,
        matchStep_empty tbr' s m' u c h1]
      exact ih s m m' u hm
    · by_cases h2 : pid c ∈ s
      · rw [List.foldl_cons, List.foldl_cons, matchStep_hit tbr s m u c h1 h2,
          matchStep_hit tbr' s m' u c h1 h2]
        refine ih _ _ _ _ ?_
        simp [hm]
      · rw [List.foldl_cons, List.foldl_cons, matchStep_miss tbr s m u c h1 h2,
          matchStep_miss tbr' s m' u c h1 h2]
        exact ih s m m' _ hm

/-! ### The transaction mapping keeps the last record per reference -/

/-- Looking up a non-empty reference in the `txn_by_ref` dict yields the last
transaction observed with that reference: each assignment overwrites. -/
theorem txnByRef_eq_last (txns : List Record) (ref : String) (href : ref ≠ "") :
    txnByRef txns ref = lastTxnWithRef txns ref := by
  induction txns using List.reverseRecOn with
  | nil => rfl
  | append_singleton l t ih =>
    rw [txnByRef, List.foldl_append, List.foldl_cons, List.foldl_nil]
    rw [lastTxnWithRef, List.reverse_append, List.reverse_singleton,
      List.singleton_append]
    rcases hget : Record.get t payaKey with _ | v
    · rw [List.find?_cons_of_neg _ (by simp [hget])]
      have hstep : tbrStep ref (List.foldl (tbrStep ref) none l) t
          = List.foldl (tbrStep ref) none l := by
        simp [tbrStep, hget]
      rw [hstep]
      exact ih
    · by_cases hv : v = ref
      · subst hv
        rw [List.find?_cons_of_pos _ (by simp [hget])]
        have hstep : tbrStep v (List.foldl (tbrStep v) none l) t = some t := by
          simp [tbrStep, hget, href]
        rw [hstep]
      · rw [List.find?_cons_of_neg _ (by simp [hget, hv])]
        have hstep : tbrStep ref (List.foldl (tbrStep ref) none l) t
            = List.foldl (tbrStep ref) none l := by
          by_cases hv0 : v = ""
          · simp [tbrStep, hget, hv0]
          · simp [tbrStep, hget, hv0, hv]
        rw [hstep]
        exact ih

/-! ### The raw-subscript comprehension never raises -/

/-- A failed accumulator stays failed along the checked comprehension. -/
theorem foldl_chkStep_none (txns : List Record) :
    txns.foldl chkStep none = none := by
  induction txns with
  | nil => rfl
  | cons t rest ih => rw [List.foldl_cons]; exact ih

/-- The checked comprehension never raises: its guard ensures the raw
subscript always finds the key, so it agrees with the total comprehension. -/
theorem foldl_chkStep_some (txns : List Record) :
    ∀ s : Finset String,
    txns.foldl chkStep (some s) = some (txns.foldl refStep s) := by
  induction txns with
  | nil => intro s; rfl
  | cons t rest ih =>
    intro s
    rw [List.foldl_cons, List.foldl_cons]
    rcases hget : Record.get t payaKey with _ | v
    · have hstep : chkStep (some s) t = some s := by
        simp [chkStep, Record.getD, hget]
      have hstep' : refStep s t = s := by
        simp [refStep, hget]
      rw [hstep, hstep', ih]
    · by_cases hv : v = ""
      · subst hv
        have hstep : chkStep (some s) t = some s := by
          simp [chkStep, Record.getD, hget]
        have hstep' : refStep s t = s := by
          simp [refStep, hget]
        rw [hstep, hstep', ih]
      · have hstep : chkStep (some s) t = some (insert v s) := by
          simp [chkStep, Record.getD, hget, hv]
        have hstep' : refStep s t = insert v s := by
          simp [refStep, hget, hv]
        rw [hstep, hstep', ih]

/-! ### Lemmas about the paginated fetch loop -/

/-- A page of the stream is consumed transparently when it is successful and
announces a continuation: the loop extends the accumulator and recurses. -/
theorem fetchPaginatedGo_append_good (url : String) (pre : List PageResponse) :
    ∀ (rest : List PageResponse) (acc : List Record),
    (∀ q ∈ pre, q.status = 200 ∧ q.success = true ∧ q.has_more = true) →
    fetchPaginatedGo url (pre ++ rest) acc
      = fetchPaginatedGo url rest (acc ++ (pre.map PageResponse.data).flatten) := by
  induction pre with
  | nil => intro rest acc _; simp
  | cons p pre' ih =>
    intro rest acc hgood
    obtain ⟨hst, hsc, hhm⟩ := hgood p (List.mem_cons_self _ _)
    rw [List.cons_append, fetchPaginatedGo]
    rw [if_neg (by rw [hst]; simp), if_neg (by rw [hsc]; simp), if_neg (by rw [hhm]; simp)]
    rw [ih rest (acc ++ p.data) (fun q hq => hgood q (List.mem_cons_of_mem _ hq))]
    simp

/-- Every record the checkout loop adds to the unmatched list is a checkout
of the processed list whose identifier is non-empty (the loop skips the rest). -/
theorem foldl_matchStep_unmatched_mem (tbr : String → Option Record) (l : List Record) :
    ∀ (s : Finset String) (m : List MatchedRecord) (u : List Record)
      (c : Record), c ∈ (List.foldl (matchStep tbr) ⟨s, m, u⟩ l).unmatched →
    c ∈ u ∨ (c ∈ l ∧ pid c ≠ "") := by
  induction l with
  | nil =>
    intro s m u c hc
    simp at hc
    exact Or.inl hc
  | cons c' rest ih =>
    intro s m u c hc
    rw [List.foldl_cons] at hc
    by_cases h1 : pid c' = ""
    · rw [matchStep_empty tbr s m u c' h1] at hc
      rcases ih s m u c hc with h | ⟨h, hne⟩
      · exact Or.inl h
      · exact Or.inr ⟨List.mem_cons_of_mem _ h, hne⟩
    · by_cases h2 : pid c' ∈ s
      · rw [matchStep_hit tbr s m u c' h1 h2] at hc
        rcases ih _ _ _ c hc with h | ⟨h, hne⟩
        · exact Or.inl h
        · exact Or.inr ⟨List.mem_cons_of_mem _ h, hne⟩
      · rw [matchStep_miss tbr s m u c' h1 h2] at hc
        rcases ih s m _ c hc with h | ⟨h, hne⟩
        · rcases List.mem_append.mp h with h | h
          · exact Or.inl h
          · simp at h
            subst h
            exact Or.inr ⟨List.mem_cons_self _ _, h1⟩
        · exact Or.inr ⟨List.mem_cons_of_mem _ h, hne⟩

/-! ### Claim theorems -/

/-- C1: for every `ClientData` without a fetch error, `match_client` returns
a `MatchResult` in which `matched_count + unmatched_count` equals the number
of checkouts whose `stripe_payment_intent_id` is present and non-empty;
checkouts with an absent or empty identifier appear in neither list. -/
theorem match_client_counts_eligible (cd : ClientData) (h : cd.error = none) :
    (match_client cd).matched_count + (match_client cd).unmatched_count
      = (eligible cd.checkouts).length
    ∧ (∀ r ∈ (match_client cd).matched, pid r.checkout ≠ "")
    ∧ (∀ c ∈ (match_client cd).unmatched, pid c ≠ "") := by
  rw [match_client, h]
  rw [if_neg (by simp)]
  rw [matchBody]
  refine ⟨?_, ?_, ?_⟩
  · simpa using foldl_matchStep_count (txnByRef cd.transactions) cd.checkouts
      (payaRefSet cd.transactions) [] []
  · intro r hr
    simp only at hr
    rcases foldl_matchStep_matched_mem (txnByRef cd.transactions) cd.checkouts
      (payaRefSet cd.transactions) [] [] r hr with hfalse | ⟨c, _, hco, hpi, hne, _, _⟩
    · exact absurd hfalse (List.not_mem_nil r)
    · rw [hco]; exact hne
  · intro c hc
    simp only at hc
    rcases foldl_matchStep_unmatched_mem (txnByRef cd.transactions) cd.checkouts
      (payaRefSet cd.transactions) [] [] c hc with hfalse | ⟨_, hne⟩
    · exact absurd hfalse (List.not_mem_nil c)
    · exact hne

/-- Witness for C1 at the concrete client of spec §8.6. -/
theorem match_client_counts_eligible_witness :
    (match_client cdAcme).matched_count + (match_client cdAcme).unmatched_count
      = (eligible cdAcme.checkouts).length
    ∧ (∀ r ∈ (match_client cdAcme).matched, pid r.checkout ≠ "")
    ∧ (∀ c ∈ (match_client cdAcme).unmatched, pid c ≠ "") :=
  match_client_counts_eligible cdAcme rfl

/-- C3 counterexample: a successfully fetched client (`error = none`,
`checkout_count` equal to the number of checkouts) with one checkout that
lacks a payment-intent identifier has `matched_count + unmatched_count = 0`
but `total_checkouts = 1`, so the claimed invariant
`matched_count + unmatched_count == total_checkouts` fails. -/
theorem counts_ne_total_checkouts_cex :
    cdNoPi.error = none
    ∧ cdNoPi.checkout_count = cdNoPi.checkouts.length
    ∧ (match_client cdNoPi).matched_count + (match_client cdNoPi).unmatched_count
        ≠ (match_client cdNoPi).total_checkouts := by
  refine ⟨rfl, rfl, ?_⟩
  decide

/-- C3 (amended): for every client whose fetch succeeded,
`matched_count + unmatched_count` equals the number of checkouts with a
non-empty payment-intent identifier; it equals `total_checkouts` exactly
when every fetched checkout carries a non-empty identifier. -/
theorem counts_eq_total_checkouts_of_all_eligible (cd : ClientData)
    (h : cd.error = none) (hcount : cd.checkout_count = cd.checkouts.length)
    (hall : ∀ c ∈ cd.checkouts, pid c ≠ "") :
    (match_client cd).matched_count + (match_client cd).unmatched_count
      = (match_client cd).total_checkouts := by
  have hsum :
      (match_client cd).matched_count + (match_client cd).unmatched_count
        = (eligible cd.checkouts).length := by
    rw [match_client, h, if_neg (by simp), matchBody]
    simpa using foldl_matchStep_count (txnByRef cd.transactions) cd.checkouts
      (payaRefSet cd.transactions) [] []
  have htot : (match_client cd).total_checkouts = cd.checkout_count := by
    rw [match_client, h, if_neg (by simp), matchBody]
  rw [hsum, htot, hcount]
  unfold eligible
  congr 1
  exact List.filter_eq_self.mpr (fun c hc => by simpa using hall c hc)

/-- Witness for the amended C3 at the concrete client of spec §8.6. -/
theorem counts_eq_total_checkouts_witness :
    (match_client cdAcme).matched_count + (match_client cdAcme).unmatched_count
      = (match_client cdAcme).total_checkouts :=
  counts_eq_total_checkouts_of_all_eligible cdAcme rfl rfl (by decide)

/-- C5: on an error-free input the match rate is
`matched / (matched + unmatched) × 100` when the denominator is positive and
exactly `0` when it is zero; the rate is total (no division error). -/
theorem match_client_rate (cd : ClientData) (h : cd.error = none) :
    (0 < (match_client cd).matched_count + (match_client cd).unmatched_count →
      (match_client cd).match_rate
        = ((match_client cd).matched_count : ℚ)
            / (((match_client cd).matched_count : ℚ)
                + ((match_client cd).unmatched_count : ℚ)) * 100)
    ∧ ((match_client cd).matched_count + (match_client cd).unmatched_count = 0 →
      (match_client cd).match_rate = 0) := by
  rw [match_client, h, if_neg (by simp), matchBody]
  simp only
  constructor
  · intro hpos
    rw [if_pos hpos]
    push_cast
    ring
  · intro hzero
    rw [if_neg (by omega)]

/-- Witness for C5 at the concrete client of spec §8.6 (rate 50). -/
theorem match_client_rate_witness :
    (0 < (match_client cdAcme).matched_count + (match_client cdAcme).unmatched_count →
      (match_client cdAcme).match_rate
        = ((match_client cdAcme).matched_count : ℚ)
            / (((match_client cdAcme).matched_count : ℚ)
                + ((match_client cdAcme).unmatched_count : ℚ)) * 100)
    ∧ ((match_client cdAcme).matched_count + (match_client cdAcme).unmatched_count = 0 →
      (match_client cdAcme).match_rate = 0) :=
  match_client_rate cdAcme rfl

/-- C9: both orchestrators return exactly one result per input client, in
input order: the i-th fetch result is the fetch of the i-th configured
client, and the j-th match result is the match of the j-th fetch result
(`asyncio.gather` and `ThreadPoolExecutor.map` both yield results in task
order, independent of completion order). -/
theorem orchestrators_preserve_order (settings : AppSettings) (env : FetchEnv)
    (clients_data : List ClientData) (i j : Nat) :
    (fetch_all_clients settings env).length = settings.clients.length
    ∧ (fetch_all_clients settings env)[i]?
        = (settings.clients[i]?).map
            (fun c => fetch_client_data c.name (env.checkoutRes c) (env.txnRes c))
    ∧ (match_all_clients clients_data).length = clients_data.length
    ∧ (match_all_clients clients_data)[j]? = (clients_data[j]?).map match_client := by
  refine ⟨?_, ?_, ?_, ?_⟩
  · simp [fetch_all_clients]
  · simp [fetch_all_clients]
  · simp [match_all_clients]
  · simp [match_all_clients]

/-- C10: `match_client` is total at its public interface: with the raw
dictionary subscript modelled as fallible, the computation never fails — on
every `ClientData`, records missing the join-key fields or carrying empty
values are filtered by the non-empty guards rather than raising a lookup
error, and the result is the total `match_client`. -/
theorem match_client_checked_total (cd : ClientData) :
    match_client_checked cd = some (match_client cd) := by
  rw [match_client_checked, match_client]
  by_cases h : Option.getD cd.error "" ≠ ""
  · rw [if_pos h, if_pos h]
  · rw [if_neg h, if_neg h, payaRefSetChecked, payaRefSet, foldl_chkStep_some]
    rfl

/-- C6: the paginated fetch stops exactly at the first response whose
`has_more` is false and returns the concatenation of the pages' `data` in
request order; a page with a non-2xx status or a failed envelope aborts the
whole fetch with an error, never exposing a partial aggregate as success. -/
theorem fetchPaginated_stops_and_concats (url : String)
    (pre : List PageResponse) (p : PageResponse) (rest : List PageResponse)
    (hpre : ∀ q ∈ pre, q.status = 200 ∧ q.success = true ∧ q.has_more = true) :
    ((p.status = 200 ∧ p.success = true ∧ p.has_more = false) →
      fetchPaginated url (pre ++ p :: rest)
        = some (Except.ok ((pre.map PageResponse.data).flatten ++ p.data)))
    ∧ ((p.status ≠ 200 ∨ p.success = false) →
      ∃ e, fetchPaginated url (pre ++ p :: rest) = some (Except.error e)) := by
  rw [fetchPaginated, fetchPaginatedGo_append_good url pre (p :: rest) [] hpre]
  simp only [List.nil_append]
  constructor
  · rintro ⟨hst, hsc, hhm⟩
    rw [fetchPaginatedGo, if_neg (by rw [hst]; simp), if_neg (by rw [hsc]; simp),
      if_pos hhm]
  · intro hbad
    by_cases hst : p.status ≠ 200
    · exact ⟨_, by rw [fetchPaginatedGo, if_pos hst]⟩
    · have hsc : p.success = false := by
        rcases hbad with h | h
        · exact absurd h hst
        · exact h
      exact ⟨_, by rw [fetchPaginatedGo, if_neg hst, if_pos hsc]⟩

/-- Witness for C6: a continuing page followed by a final page aggregates
both data pages; the same prefix followed by a failing page yields an error. -/
theorem fetchPaginated_stops_and_concats_witness :
    fetchPaginated "u" ([pageOk1] ++ pageOk2 :: [])
      = some (Except.ok (([pageOk1].map PageResponse.data).flatten ++ pageOk2.data))
    ∧ ∃ e, fetchPaginated "u" ([pageOk1] ++ pageBad :: []) = some (Except.error e) :=
  ⟨(fetchPaginated_stops_and_concats "u" [pageOk1] pageOk2 [] (by decide)).1 (by decide),
   (fetchPaginated_stops_and_concats "u" [pageOk1] pageBad [] (by decide)).2 (by decide)⟩

/-- C7 counterexample: an input whose fetch error is set to the empty string
is not propagated — the Python truthiness guard `if client_data.error:`
treats it as no error, matching proceeds, and the resulting `MatchResult`
carries no error and a non-zero unmatched count. -/
theorem error_truthiness_cex :
    cdEmptyErr.error = some ""
    ∧ (match_client cdEmptyErr).error = none
    ∧ (match_client cdEmptyErr).unmatched_count = 1
    ∧ (match_client cdEmptyErr).unmatched ≠ [] := by
  refine ⟨rfl, ?_, ?_, ?_⟩ <;> decide

/-- C7 (amended): `fetch_client_data` returns an error-carrying result with
empty lists and zero counts whenever either sub-fetch fails, and an input
whose fetch error is a non-empty string is propagated by `match_client` as
an error-only `MatchResult` with zero counts and empty lists, without
attempting matching. -/
theorem fetch_error_propagation (name : String)
    (cres tres : Except String (List Record)) (cd : ClientData) (e : String)
    (hfail : (∃ msg, cres = Except.error msg) ∨ (∃ msg, tres = Except.error msg))
    (herr : cd.error = some e) (hne : e ≠ "") :
    (∃ msg, fetch_client_data name cres tres
        = { client_name := name, checkouts := [], transactions := [],
            checkout_count := 0, transaction_count := 0, error := some msg })
    ∧ match_client cd
        = { client_name := cd.client_name, matched := [], unmatched := [],
            matched_count := 0, unmatched_count := 0, total_checkouts := 0,
            total_transactions := 0, match_rate := 0, error := some e } := by
  constructor
  · rcases hfail with ⟨msg, hmsg⟩ | ⟨msg, hmsg⟩
    · subst hmsg
      rcases tres with msg2 | ts
      · exact ⟨msg, rfl⟩
      · exact ⟨msg, rfl⟩
    · subst hmsg
      rcases cres with msg2 | cs
      · exact ⟨msg2, rfl⟩
      · exact ⟨msg, rfl⟩
  · rw [match_client, herr, if_pos (show Option.getD (some e) "" ≠ "" by simpa using hne)]

/-- Witness for the amended C7 at a failing checkout sub-fetch and a client
with a non-empty fetch error. -/
theorem fetch_error_propagation_witness :
    (∃ msg, fetch_client_data "c" (Except.error "HTTP 500 from u") (Except.ok [])
        = { client_name := "c", checkouts := [], transactions := [],
            checkout_count := 0, transaction_count := 0, error := some msg })
    ∧ match_client { client_name := "c", error := some "boom" }
        = { client_name := "c", matched := [], unmatched := [],
            matched_count := 0, unmatched_count := 0, total_checkouts := 0,
            total_transactions := 0, match_rate := 0, error := some "boom" } :=
  fetch_error_propagation "c" (Except.error "HTTP 500 from u") (Except.ok [])
    { client_name := "c", error := some "boom" } "boom"
    (Or.inl ⟨"HTTP 500 from u", rfl⟩) rfl (by decide)

/-- C8: when the guard already shows Running, the orchestrator returns an
"already running" error and mutates no shared state; when it enters, the
running flag is back to false after every outcome, and a pipeline-level
exception leaves the last-run summary unchanged. -/
theorem run_pipeline_guard {σ : Type} (st : PipelineState σ)
    (outcome : PipelineOutcome σ) :
    (st.is_running = true →
      run_matching_pipeline st outcome
        = (st, RunResponse.error "A matching job is already running"))
    ∧ (st.is_running = false →
      ((run_matching_pipeline st outcome).1.is_running = false
        ∧ ∀ e, outcome = PipelineOutcome.failure e →
            (run_matching_pipeline st outcome).1.last_run = st.last_run)) := by
  constructor
  · intro h
    rw [run_matching_pipeline, if_pos h]
  · intro h
    rw [run_matching_pipeline, if_neg (by rw [h]; simp)]
    constructor
    · cases outcome <;> rfl
    · intro e he
      subst he
      rfl

/-- Witness for C8: a rejected second run leaves the state untouched, and an
entered run that raises ends with the flag cleared and the summary kept. -/
theorem run_pipeline_guard_witness :
    run_matching_pipeline (⟨true, none⟩ : PipelineState Nat) (PipelineOutcome.success 5)
      = (⟨true, none⟩, RunResponse.error "A matching job is already running")
    ∧ (run_matching_pipeline (⟨false, some 3⟩ : PipelineState Nat)
        (PipelineOutcome.failure "boom")).1.is_running = false
    ∧ (run_matching_pipeline (⟨false, some 3⟩ : PipelineState Nat)
        (PipelineOutcome.failure "boom")).1.last_run = some 3 :=
  ⟨(run_pipeline_guard ⟨true, none⟩ (PipelineOutcome.success 5)).1 rfl,
   ((run_pipeline_guard ⟨false, some 3⟩ (PipelineOutcome.failure "boom")).2 rfl).1,
   ((run_pipeline_guard (⟨false, some 3⟩ : PipelineState Nat)
      (PipelineOutcome.failure "boom")).2 rfl).2 "boom" rfl⟩

/-- C2 counterexample: with two transactions sharing the reference `a` in
order `txnFst, txnSnd`, the matched record for a checkout presenting `a`
attaches `txnSnd` — the dict assignment overwrites, so the *last*
transaction observed wins, not the first as claimed. -/
theorem attached_txn_not_first_cex :
    cdDupTxn.transactions = [txnFst, txnSnd]
    ∧ Record.get txnFst payaKey = some "a"
    ∧ (match_client cdDupTxn).matched.map MatchedRecord.transaction = [txnSnd]
    ∧ txnSnd ≠ txnFst
    ∧ (match_client cdDupTxn).matched.map MatchedRecord.transaction ≠ [txnFst] := by
  refine ⟨rfl, rfl, ?_, ?_, ?_⟩ <;> decide

/-- C2 (amended): when several transactions share the same non-empty
reference, the transaction attached to a matched record is the *last* one
observed with that reference in the input transaction list; apart from which
duplicate is attached, the matched/unmatched partition depends only on the
set of non-empty references, hence is independent of transaction order and
duplicates. -/
theorem match_client_attaches_last_set_determines_partition
    (cd cd' : ClientData) (h : cd.error = none) (h' : cd'.error = none)
    (hc : cd.checkouts = cd'.checkouts)
    (hs : payaRefSet cd.transactions = payaRefSet cd'.transactions) :
    (∀ r ∈ (match_client cd).matched,
        r.payment_intent ≠ ""
        ∧ r.transaction = (lastTxnWithRef cd.transactions r.payment_intent).getD [])
    ∧ (match_client cd).unmatched = (match_client cd').unmatched
    ∧ (match_client cd).matched.map MatchedRecord.checkout
        = (match_client cd').matched.map MatchedRecord.checkout := by
  refine ⟨?_, ?_⟩
  · intro r hr
    rw [match_client, h, if_neg (by simp), matchBody] at hr
    simp only at hr
    rcases foldl_matchStep_matched_mem (txnByRef cd.transactions) cd.checkouts
      (payaRefSet cd.transactions) [] [] r hr with hfalse | ⟨c, _, _, hpi, hne, _, htx⟩
    · exact absurd hfalse (List.not_mem_nil r)
    · refine ⟨hpi ▸ hne, ?_⟩
      rw [htx, hpi, txnByRef_eq_last cd.transactions (pid c) hne]
  · rw [match_client, h, if_neg (by simp), match_client, h', if_neg (by simp),
      matchBody, matchBody, hc, hs]
    simp only
    have hpart := foldl_matchStep_partition (txnByRef cd.transactions)
      (txnByRef cd'.transactions) cd'.checkouts
      (payaRefSet cd'.transactions) [] [] [] rfl
    exact ⟨hpart.2.1, hpart.2.2⟩

/-- Witness for the amended C2: the duplicate-reference client and its
transaction-reversed twin produce the same partition, and the attached
transaction is the last observed. -/
theorem match_client_attaches_last_witness :
    (∀ r ∈ (match_client cdDupTxn).matched,
        r.payment_intent ≠ ""
        ∧ r.transaction = (lastTxnWithRef cdDupTxn.transactions r.payment_intent).getD [])
    ∧ (match_client cdDupTxn).unmatched = (match_client cdDupTxnRev).unmatched
    ∧ (match_client cdDupTxn).matched.map MatchedRecord.checkout
        = (match_client cdDupTxnRev).matched.map MatchedRecord.checkout :=
  match_client_attaches_last_set_determines_partition cdDupTxn cdDupTxnRev
    rfl rfl rfl (by decide)

/-- C4: if two checkouts carry the same non-empty payment-intent identifier
that occurs among the transaction references, the first such checkout is the
unique matched record for that identifier (the identifier is discarded from
the working set), and every later checkout presenting it lands in the
unmatched list, never matched a second time. -/
theorem first_dup_matched_later_unmatched (cd : ClientData)
    (pre post : List Record) (c0 : Record)
    (herr : cd.error = none)
    (hsplit : cd.checkouts = pre ++ c0 :: post)
    (hpi : pid c0 ≠ "")
    (href : pid c0 ∈ payaRefSet cd.transactions)
    (hfirst : ∀ c ∈ pre, pid c ≠ pid c0) :
    ((match_client cd).matched.filter
        (fun r => r.payment_intent == pid c0)).map MatchedRecord.checkout = [c0]
    ∧ ∀ c ∈ post, pid c = pid c0 → c ∈ (match_client cd).unmatched := by
  rw [match_client, herr, if_neg (by simp), matchBody]
  simp only
  rw [hsplit, List.foldl_append, List.foldl_cons]
  rcases hst1 : List.foldl (matchStep (txnByRef cd.transactions))
      ⟨payaRefSet cd.transactions, [], []⟩ pre with ⟨s1, m1, u1⟩
  have hs1mem : pid c0 ∈ s1 := by
    have hkeep := foldl_matchStep_mem_refSet (txnByRef cd.transactions) (pid c0) pre
      (payaRefSet cd.transactions) [] [] hfirst href
    rw [hst1] at hkeep
    exact hkeep
  rw [matchStep_hit (txnByRef cd.transactions) s1 m1 u1 c0 hpi hs1mem]
  constructor
  · rw [foldl_matchStep_acc (txnByRef cd.transactions) post (s1.erase (pid c0))
      (m1 ++ [(⟨c0, ((txnByRef cd.transactions) (pid c0)).getD [], pid c0⟩ : MatchedRecord)]) u1]
    simp only
    rw [List.filter_append, List.filter_append]
    have hm1 : m1.filter (fun r => r.payment_intent == pid c0) = [] := by
      rw [List.filter_eq_nil_iff]
      intro r hr
      have hr2 : r ∈ (List.foldl (matchStep (txnByRef cd.transactions))
          ⟨payaRefSet cd.transactions, [], []⟩ pre).matched := by
        rw [hst1]
        exact hr
      rcases foldl_matchStep_matched_mem (txnByRef cd.transactions) pre
        (payaRefSet cd.transactions) [] [] r hr2 with hf | ⟨c, hcmem, _, hpi2, _, _, _⟩
      · exact absurd hf (List.not_mem_nil r)
      · simp [hpi2, hfirst c hcmem]
    have hM2 : ((List.foldl (matchStep (txnByRef cd.transactions))
        ⟨(s1.erase (pid c0)), [], []⟩ post).matched).filter
          (fun r => r.payment_intent == pid c0) = [] := by
      rw [List.filter_eq_nil_iff]
      intro r hr
      rcases foldl_matchStep_no_match_of_not_mem (txnByRef cd.transactions) (pid c0)
        post (s1.erase (pid c0)) [] [] (Finset.not_mem_erase _ _) r hr with hf | hne
      · exact absurd hf (List.not_mem_nil r)
      · simp [hne]
    rw [hm1, hM2]
    simp
  · intro c hc hcpi
    exact foldl_matchStep_unmatched_of_not_mem (txnByRef cd.transactions) (pid c0) hpi
      post (s1.erase (pid c0)) _ u1 (Finset.not_mem_erase _ _) c hc hcpi

/-- Witness for C4: two checkouts presenting the intent `a` with one
transaction carrying reference `a` — the first checkout is the unique match,
the second is unmatched. -/
theorem first_dup_matched_later_unmatched_witness :
    ((match_client cdDupChk).matched.filter
        (fun r => r.payment_intent == pid [(piKey, "a"), ("n", "1")])).map
          MatchedRecord.checkout = [[(piKey, "a"), ("n", "1")]]
    ∧ ∀ c ∈ [[(piKey, "a"), ("n", "2")]], pid c = pid [(piKey, "a"), ("n", "1")] →
        c ∈ (match_client cdDupChk).unmatched :=
  first_dup_matched_later_unmatched cdDupChk [] [[(piKey, "a"), ("n", "2")]]
    [(piKey, "a"), ("n", "1")] rfl rfl (by decide) (by decide)
    (fun c hc => absurd hc (List.not_mem_nil c))

end DataMatching
